import Mathlib

set_option maxRecDepth 100000

/-!
Verification of the CLI EVM wallet (src/utils/parseArgs.ts).

Bytes are modelled as natural numbers below 256 in lists (a Uint8Array
or Buffer becomes a List Nat).  External library primitives (keccak256
from noble-hashes, ecdsaSign from secp256k1, pbkdf2Sync from node
crypto, rlp.encode from the rlp package, NFKD normalization) are taken
as abstract function parameters: the repository code only composes
them, and every claim below is about that composition.
-/

namespace Wallet

/-- Hex-digit test matching the character class 0-9a-fA-F used by the
regular expressions in the source. -/
def isHexDigit (c : Char) : Bool :=
  (decide (c ≥ Char.ofNat 48) && decide (c ≤ Char.ofNat 57)) ||
  (decide (c ≥ Char.ofNat 97) && decide (c ≤ Char.ofNat 102)) ||
  (decide (c ≥ Char.ofNat 65) && decide (c ≤ Char.ofNat 70))

/-- Numeric value of a hex digit, as parseInt with radix 16 computes it. -/
def hexDigitVal (c : Char) : Nat :=
  if c.toNat ≥ 97 then c.toNat - 87
  else if c.toNat ≥ 65 then c.toNat - 55
  else c.toNat - 48

/-- JS parseInt(chunk, 16) on a chunk of at most two characters, followed
by the Uint8Array store which turns NaN into the byte 0.  parseInt parses
the longest valid prefix and yields NaN when the first character is not a
hex digit. -/
def parseHexChunk : List Char → Nat
  | [] => 0
  | [a] => if isHexDigit a then hexDigitVal a else 0
  | a :: b :: _ =>
    if isHexDigit a then
      if isHexDigit b then 16 * hexDigitVal a + hexDigitVal b
      else hexDigitVal a
    else 0

/-- Splits a character list into the substr(i*2, 2) chunks taken by
hexToUint8Array: pairs, with a final singleton when the length is odd. -/
def chunk2 : List Char → List (List Char)
  | [] => []
  | [a] => [[a]]
  | a :: b :: rest => [a, b] :: chunk2 rest

/-- Embedding of hexToUint8Array (src/utils/parseArgs.ts lines 108-116):
strip an optional 0x, then read the string two characters at a time,
ceil(length/2) bytes in total. -/
def hexToUint8Array (hex : String) : List Nat :=
  let clean :=
    match hex.toList with
    | '0' :: 'x' :: rest => rest
    | cs => cs
  (chunk2 clean).map parseHexChunk

/-- JS Number.prototype.toString(16) / BigInt.prototype.toString(16) for a
nonnegative integer: minimal lowercase hex digits, and the single digit 0
for zero. -/
def jsToHexString (n : Nat) : String :=
  String.mk (Nat.toDigits 16 n)

/-- Minimal big-endian byte representation of a natural number, the empty
list for zero; fuel-based so that it evaluates by kernel reduction. -/
def minBEAux : Nat → Nat → List Nat
  | 0, _ => []
  | fuel + 1, n => if n = 0 then [] else minBEAux fuel (n / 256) ++ [n % 256]

/-- Minimal big-endian bytes of a natural number (zero gives the empty
byte string).  This is the normalization the specification mandates for
integer transaction fields. -/
def minBE (n : Nat) : List Nat :=
  minBEAux (n + 1) n

/-- Embedding of encodeTx (src/utils/parseArgs.ts lines 118-144): the
nine-element field list of the unsigned transaction, with two trailing
empty placeholders. -/
def encodeTx (nonce gasPrice gasLimit : Nat) (toAddr : String) (value : Nat)
    (data : List Nat) (chainId : Nat) : List (List Nat) :=
  [ if nonce = 0 then [] else hexToUint8Array (jsToHexString nonce),
    if gasPrice = 0 then [] else hexToUint8Array (jsToHexString gasPrice),
    if gasLimit = 0 then [] else hexToUint8Array (jsToHexString gasLimit),
    hexToUint8Array toAddr,
    if value = 0 then [] else hexToUint8Array (jsToHexString value),
    data,
    hexToUint8Array (jsToHexString chainId),
    [],
    [] ]

/-- Embedding of mnemonicToSeedSync (src/utils/parseArgs.ts lines 59-73),
parameterized by the node crypto pbkdf2Sync primitive (password, salt,
iterations, keylen, digest) and by the NFKD string normalization, both
external to the repository. -/
def mnemonicToSeedSync
    (pbkdf2Sync : String → String → Nat → Nat → String → List Nat)
    (nfkd : String → String) (mnemonic : String) (passphrase : String) :
    List Nat :=
  let salt := "mnemonic" ++ passphrase
  pbkdf2Sync (nfkd mnemonic) (nfkd salt) 2048 64 "sha512"

/-- Two lowercase hex characters of one byte, as Buffer.toString with the
hex encoding renders it. -/
def byteToHex (b : Nat) : List Char :=
  [Nat.digitChar (b / 16 % 16), Nat.digitChar (b % 16)]

/-- Lowercase hex rendering of a byte list. -/
def bytesToHex (bs : List Nat) : List Char :=
  (bs.map byteToHex).flatten

/-- Embedding of publicKeyToAddress (lines 96-102), parameterized by the
keccak256 hash.  A thrown Error becomes the error branch of Except.
hash.subarray(-20) is the last 20 entries, hence drop (length - 20). -/
def publicKeyToAddress (keccak256 : List Nat → List Nat)
    (pubKey : List Nat) : Except String String :=
  if pubKey.length ≠ 65 then .error "Invalid public key length"
  else
    let coordBytes := pubKey.drop 1
    let hash := keccak256 coordBytes
    let addressBytes := hash.drop (hash.length - 20)
    .ok (String.mk ('0' :: 'x' :: bytesToHex addressBytes))

/-- The anchored regular expression 0x followed by exactly 40 hex digits
(line 147). -/
def isAddrFormat (s : String) : Bool :=
  match s.toList with
  | '0' :: 'x' :: rest => rest.length == 40 && rest.all isHexDigit
  | _ => false

/-- Node Buffer.from with hex encoding: decode two characters per byte,
stopping at the first invalid pair or odd-length tail (it never throws). -/
def bufferFromHex : List Char → List Nat
  | a :: b :: rest =>
    if isHexDigit a && isHexDigit b then
      (16 * hexDigitVal a + hexDigitVal b) :: bufferFromHex rest
    else []
  | _ => []

/-- Embedding of isHexAddress (lines 146-154): the regular-expression test
followed by the decoded-length check; addr.slice(2) drops the 0x. -/
def isHexAddress (addr : String) : Bool :=
  if !(isAddrFormat addr) then false
  else (bufferFromHex (addr.toList.drop 2)).length == 20

/-- The EIP-155 replay-protected v value computed at line 175. -/
def computeV (chainId recid : Nat) : Nat :=
  chainId * 2 + 35 + recid

/-- Embedding of the field list built inside signTransaction
(lines 166-194): the original seven fields with v, r, s appended.
rlpEncode models the rlp library, keccak256 the noble hash, and
ecdsaSign the secp256k1 signer returning a 64-byte signature together
with a recovery id — all external libraries taken as parameters. -/
def signTxFields (rlpEncode : List (List Nat) → List Nat)
    (keccak256 : List Nat → List Nat)
    (ecdsaSign : List Nat → List Nat → List Nat × Nat)
    (nonce gasPrice gasLimit : Nat) (toAddr : String) (value : Nat)
    (data : List Nat) (chainId : Nat) (privateKey : List Nat) :
    List (List Nat) :=
  let rawTx := encodeTx nonce gasPrice gasLimit toAddr value data chainId
  let rlpEncoded := rlpEncode rawTx
  let msgHash := keccak256 rlpEncoded
  let sig := ecdsaSign msgHash privateKey
  let r := sig.1.take 32
  let s := (sig.1.drop 32).take 32
  let v := computeV chainId sig.2
  [ if nonce = 0 then [] else hexToUint8Array (jsToHexString nonce),
    if gasPrice = 0 then [] else hexToUint8Array (jsToHexString gasPrice),
    if gasLimit = 0 then [] else hexToUint8Array (jsToHexString gasLimit),
    hexToUint8Array toAddr,
    if value = 0 then [] else hexToUint8Array (jsToHexString value),
    data,
    hexToUint8Array (jsToHexString v),
    r,
    s ]

/-- Embedding of signTransaction (lines 156-196): the rlp encoding of the
nine-field list with v, r, s. -/
def signTransaction (rlpEncode : List (List Nat) → List Nat)
    (keccak256 : List Nat → List Nat)
    (ecdsaSign : List Nat → List Nat → List Nat × Nat)
    (nonce gasPrice gasLimit : Nat) (toAddr : String) (value : Nat)
    (data : List Nat) (chainId : Nat) (privateKey : List Nat) : List Nat :=
  rlpEncode (signTxFields rlpEncode keccak256 ecdsaSign nonce gasPrice
    gasLimit toAddr value data chainId privateKey)

/-- The transaction id printed at line 383: keccak hash of the signed
bytes. -/
def txId (keccak256 : List Nat → List Nat)
    (rlpEncode : List (List Nat) → List Nat)
    (ecdsaSign : List Nat → List Nat → List Nat × Nat)
    (nonce gasPrice gasLimit : Nat) (toAddr : String) (value : Nat)
    (data : List Nat) (chainId : Nat) (privateKey : List Nat) : List Nat :=
  keccak256 (signTransaction rlpEncode keccak256 ecdsaSign nonce gasPrice
    gasLimit toAddr value data chainId privateKey)

/-- Result type of the JS dynamic value produced by parseValue. -/
inductive JSValue where
  | bool : Bool → JSValue
  | num : Rat → JSValue
  | str : String → JSValue
deriving DecidableEq

/-- The anchored regular expression 0x followed by one or more hex digits
(line 46). -/
def isHexLiteral (s : String) : Bool :=
  match s.toList with
  | '0' :: 'x' :: rest => !rest.isEmpty && rest.all isHexDigit
  | _ => false

/-- Embedding of parseValue (lines 42-49).  jsNumber models the JS Number
conversion on strings, returning none for NaN. -/
def parseValue (jsNumber : String → Option Rat) (v : String) : JSValue :=
  if v = "true" then .bool true
  else if v = "false" then .bool false
  else if isHexLiteral v then .str v
  else
    match jsNumber v with
    | some q => if v.trim ≠ "" then .num q else .str v
    | none => .str v

/-- Embedding of the main-flow fragment at lines 303-378: the recipient
address is validated with isHexAddress and the process exits (error)
before anything else runs; otherwise the rest of the program — the
numeric re-validations and the signTransaction call — runs, abstracted
here as the continuation rest. -/
def walletSignFlow (rest : Unit → List Nat) (toAddr : String) :
    Except String (List Nat) :=
  if !(isHexAddress toAddr) then .error "Invalid --to address"
  else .ok (rest ())

/-! Exact model of the IEEE-754 double-precision arithmetic performed by
the value conversion at line 336, BigInt(Math.floor(parseFloat(v) * 1e18)).
A nonnegative double in the normal range is a pair (m, e) of mantissa and
binary exponent with value m * 2 ^ e; parseFloat and multiplication round
the exact result to 53 mantissa bits, nearest, ties to even.  The model
covers nonnegative values in the normal finite range, which is where every
CLI value input lives. -/

/-- Number of binary digits of a natural number, with explicit fuel so
that it evaluates by kernel reduction (fuel 256 covers every number
below 2 to the 256th, far beyond all quantities in this model). -/
def bitLen : Nat → Nat → Nat
  | 0, _ => 0
  | fuel + 1, n => if n = 0 then 0 else bitLen fuel (n / 2) + 1

/-- Round the value N * 2 ^ E to at most 53 mantissa bits, nearest, ties
to even: the IEEE rounding applied to an exact product of two doubles. -/
def roundScaled (N : Nat) (E : Int) : Nat × Int :=
  let b := bitLen 256 N
  if b ≤ 53 then (N, E)
  else
    let sh := b - 53
    let n := N / 2 ^ sh
    let r := N % 2 ^ sh
    let half := 2 ^ (sh - 1)
    let m := if r < half then n
             else if half < r then n + 1
             else if n % 2 = 0 then n else n + 1
    (m, E + sh)

/-- Nearest double to the exact rational p / q (q positive), nearest,
ties to even: the value parseFloat returns on a decimal string whose
exact value is p / q. -/
def roundRat (p q : Nat) : Nat × Int :=
  let k0 : Int := (bitLen 256 p : Int) - (bitLen 256 q : Int)
  let geq : Bool :=
    if 0 ≤ k0 then decide (q * 2 ^ k0.toNat ≤ p)
    else decide (q ≤ p * 2 ^ (-k0).toNat)
  let k := if geq then k0 else k0 - 1
  let e := k - 52
  let num := if 0 ≤ e then p else p * 2 ^ (-e).toNat
  let den := if 0 ≤ e then q * 2 ^ e.toNat else q
  let n := num / den
  let r := num % den
  let m := if 2 * r < den then n
           else if den < 2 * r then n + 1
           else if n % 2 = 0 then n else n + 1
  (m, e)

/-- Math.floor of the nonnegative double (m, e). -/
def ddFloor (d : Nat × Int) : Nat :=
  if 0 ≤ d.2 then d.1 * 2 ^ d.2.toNat else d.1 / 2 ^ (-d.2).toNat

/-- Embedding of the conversion at line 336 for a value string whose exact
decimal value is p / q: parseFloat rounds p / q to a double, the literal
1e18 is the double nearest to 10 ^ 18 (which is exact), the product is
rounded again, and Math.floor truncates; BigInt of an integral double is
exact. -/
def jsEthToWei (p q : Nat) : Nat :=
  let d := roundRat p q
  let lit := roundRat 1000000000000000000 1
  let prod := roundScaled (d.1 * lit.1) (d.2 + lit.2)
  ddFloor prod

/-- The conversion the specification states: multiply the exact decimal
value p / q by 10 ^ 18 and truncate toward zero. -/
def exactWei (p q : Nat) : Nat :=
  p * 1000000000000000000 / q

/-! Concrete stand-ins for the external primitives, used to instantiate
the parameterized theorems on closed inputs. -/

/-- A concrete 32-byte hash stand-in. -/
def keccakModel : List Nat → List Nat :=
  fun _ => List.replicate 32 171

/-- A concrete rlp stand-in. -/
def rlpModel : List (List Nat) → List Nat :=
  fun fields => fields.flatten

/-- A concrete signer stand-in returning the 64 bytes 0..63 and recovery
id 1. -/
def ecdsaModel : List Nat → List Nat → List Nat × Nat :=
  fun _ _ => (List.range 64, 1)

/-- A concrete pbkdf2 stand-in honouring the requested key length. -/
def pbkdf2Model : String → String → Nat → Nat → String → List Nat :=
  fun _ _ _ klen _ => List.replicate klen 0

/-- Every digit below 16 renders as a character of the class 0-9a-f. -/
theorem isHexDigit_digitChar : ∀ d, d < 16 → isHexDigit (Nat.digitChar d) = true := by
  decide

/-- The hex rendering of a byte list has two characters per byte. -/
theorem bytesToHex_length (bs : List Nat) : (bytesToHex bs).length = 2 * bs.length := by
  induction bs with
  | nil => rfl
  | cons b bs ih =>
    simp only [bytesToHex, List.map_cons, List.flatten_cons, List.length_append,
      List.length_cons] at *
    simp [byteToHex, ih]
    omega

/-- The hex rendering of a byte list consists of hex digits only. -/
theorem bytesToHex_all_hex (bs : List Nat) : (bytesToHex bs).all isHexDigit = true := by
  induction bs with
  | nil => rfl
  | cons b bs ih =>
    simp only [bytesToHex, List.map_cons, List.flatten_cons, List.all_append] at *
    refine (Bool.and_eq_true _ _).mpr ⟨?_, ih⟩
    simp only [byteToHex, List.all_cons, List.all_nil, Bool.and_true]
    refine (Bool.and_eq_true _ _).mpr ⟨?_, ?_⟩
    · exact isHexDigit_digitChar _ (Nat.mod_lt _ (by norm_num))
    · exact isHexDigit_digitChar _ (Nat.mod_lt _ (by norm_num))

/-- Unfolding of the address format test on a string built from 0x and a
character list. -/
theorem isAddrFormat_mk (cs : List Char) :
    isAddrFormat (String.mk ('0' :: 'x' :: cs)) = (cs.length == 40 && cs.all isHexDigit) :=
  rfl

end Wallet

namespace Wallet

/-- C1: the claim that every integer field is encoded as its minimal
big-endian byte representation fails on the code: a nonce of 256 (hex
100, an odd number of digits) is encoded by hexToUint8Array as the bytes
16, 0 — the value 4096 — instead of the minimal representation 1, 0, and
a chainId of 0 is encoded as the single byte 0 instead of the empty byte
string, in the unsigned field list produced by encodeTx and identically
in the signed field list. -/
theorem C1_encodeTx_not_minimal :
    (encodeTx 256 1000000000 21000 "0x8ba1f109551bd432803012645ac136ddd64dba72"
        10000000000000000 [] 1).getD 0 [] = [16, 0]
    ∧ minBE 256 = [1, 0]
    ∧ (encodeTx 0 1000000000 21000 "0x8ba1f109551bd432803012645ac136ddd64dba72"
        1 [] 0).getD 6 [] = [0]
    ∧ minBE 0 = []
    ∧ (signTxFields rlpModel keccakModel ecdsaModel 256 1000000000 21000
        "0x8ba1f109551bd432803012645ac136ddd64dba72" 10000000000000000 [] 1
        (List.replicate 32 1)).getD 0 [] = [16, 0] := by
  refine ⟨by decide, by decide, by decide, rfl, by decide⟩

/-- C2: the v value produced inside signTransaction equals
chainId * 2 + 35 + recid; whenever the recovery id returned by the
signing library lies in 0..1, the chainId and the recovery id are
recovered from v as (v - 35) / 2 and (v - 35) % 2. -/
theorem C2_v_eip155 (rlpEncode : List (List Nat) → List Nat)
    (keccak256 : List Nat → List Nat)
    (ecdsaSign : List Nat → List Nat → List Nat × Nat)
    (nonce gasPrice gasLimit : Nat) (toAddr : String) (value : Nat)
    (data : List Nat) (chainId : Nat) (privateKey : List Nat) (recid : Nat)
    (hrec : recid = (ecdsaSign (keccak256 (rlpEncode (encodeTx nonce gasPrice
      gasLimit toAddr value data chainId))) privateKey).2)
    (hr01 : recid ≤ 1) :
    (signTxFields rlpEncode keccak256 ecdsaSign nonce gasPrice gasLimit toAddr
        value data chainId privateKey).getD 6 []
      = hexToUint8Array (jsToHexString (computeV chainId recid))
    ∧ computeV chainId recid = chainId * 2 + 35 + recid
    ∧ (computeV chainId recid - 35) / 2 = chainId
    ∧ (computeV chainId recid - 35) % 2 = recid := by
  subst hrec
  refine ⟨rfl, rfl, ?_, ?_⟩ <;> (unfold computeV; omega)

/-- C2 witness: the theorem instantiated on the concrete library models
with chainId 1, where the recovery id is 1 and v is 38. -/
theorem C2_v_eip155_witness :
    (signTxFields rlpModel keccakModel ecdsaModel 0 1000000000 21000
        "0x8ba1f109551bd432803012645ac136ddd64dba72" 5 [] 1
        (List.replicate 32 1)).getD 6 []
      = hexToUint8Array (jsToHexString (computeV 1 1))
    ∧ computeV 1 1 = 1 * 2 + 35 + 1
    ∧ (computeV 1 1 - 35) / 2 = 1
    ∧ (computeV 1 1 - 35) % 2 = 1 :=
  C2_v_eip155 rlpModel keccakModel ecdsaModel 0 1000000000 21000
    "0x8ba1f109551bd432803012645ac136ddd64dba72" 5 [] 1
    (List.replicate 32 1) 1 rfl (by decide)

/-- C3: the sign-transaction pipeline is a pure function of the eight
inputs (and of the deterministic library primitives): two runs on the
same tuple produce the same signed bytes and the same transaction id. -/
theorem C3_sign_deterministic (rlpEncode : List (List Nat) → List Nat)
    (keccak256 : List Nat → List Nat)
    (ecdsaSign : List Nat → List Nat → List Nat × Nat)
    (nonce gasPrice gasLimit : Nat) (toAddr : String) (value : Nat)
    (data : List Nat) (chainId : Nat) (privateKey : List Nat) :
    signTransaction rlpEncode keccak256 ecdsaSign nonce gasPrice gasLimit
        toAddr value data chainId privateKey
      = signTransaction rlpEncode keccak256 ecdsaSign nonce gasPrice gasLimit
        toAddr value data chainId privateKey
    ∧ txId keccak256 rlpEncode ecdsaSign nonce gasPrice gasLimit toAddr value
        data chainId privateKey
      = txId keccak256 rlpEncode ecdsaSign nonce gasPrice gasLimit toAddr value
        data chainId privateKey :=
  ⟨rfl, rfl⟩

/-- C4: seed derivation runs the key-derivation primitive on the
NFKD-normalized mnemonic as password and the NFKD-normalized salt
string mnemonic plus passphrase, with 2048 iterations, 64 requested
bytes and the sha512 digest, and returns its 64-byte output; the
definition is total, in particular on the empty passphrase. -/
theorem C4_seed_derivation
    (pbkdf2Sync : String → String → Nat → Nat → String → List Nat)
    (nfkd : String → String) (mnemonic passphrase : String)
    (hlen : ∀ pw salt iter klen dg, (pbkdf2Sync pw salt iter klen dg).length = klen) :
    mnemonicToSeedSync pbkdf2Sync nfkd mnemonic passphrase
      = pbkdf2Sync (nfkd mnemonic) (nfkd ("mnemonic" ++ passphrase)) 2048 64 "sha512"
    ∧ (mnemonicToSeedSync pbkdf2Sync nfkd mnemonic passphrase).length = 64 :=
  ⟨rfl, hlen _ _ _ _ _⟩

/-- C4 witness: the theorem instantiated on the concrete pbkdf2 model,
the identity normalization and the empty passphrase. -/
theorem C4_seed_derivation_witness :
    mnemonicToSeedSync pbkdf2Model id "abc" ""
      = pbkdf2Model (id "abc") (id ("mnemonic" ++ "")) 2048 64 "sha512"
    ∧ (mnemonicToSeedSync pbkdf2Model id "abc" "").length = 64 :=
  C4_seed_derivation pbkdf2Model id "abc" ""
    (fun _ _ _ _ _ => by simp [pbkdf2Model])

/-- C5: on a 65-byte public key whose hash is 32 bytes long, the address
function strips the prefix byte, hashes the 64 coordinate bytes, keeps
the last 20 bytes of the digest and renders them as a 0x-prefixed
40-hex-character string matching the address pattern. -/
theorem C5_address_from_pubkey (keccak256 : List Nat → List Nat)
    (pubKey : List Nat) (hlen : pubKey.length = 65)
    (hklen : (keccak256 (pubKey.drop 1)).length = 32) :
    publicKeyToAddress keccak256 pubKey
      = .ok (String.mk ('0' :: 'x' :: bytesToHex ((keccak256 (pubKey.drop 1)).drop 12)))
    ∧ isAddrFormat
        (String.mk ('0' :: 'x' :: bytesToHex ((keccak256 (pubKey.drop 1)).drop 12)))
      = true := by
  have hklen2 : (keccak256 pubKey.tail).length = 32 := by
    rw [← List.drop_one]
    exact hklen
  constructor
  · simp [publicKeyToAddress, hlen, hklen2]
  · rw [isAddrFormat_mk]
    refine (Bool.and_eq_true _ _).mpr ⟨?_, bytesToHex_all_hex _⟩
    simp [bytesToHex_length, List.length_drop, hklen2, List.drop_one]

/-- C5 witness: the theorem instantiated on the concrete hash model and
the constant 65-byte key 4, 4, ..., 4. -/
theorem C5_address_from_pubkey_witness :
    publicKeyToAddress keccakModel (List.replicate 65 4)
      = .ok (String.mk ('0' :: 'x' ::
          bytesToHex ((keccakModel ((List.replicate 65 4).drop 1)).drop 12)))
    ∧ isAddrFormat
        (String.mk ('0' :: 'x' ::
          bytesToHex ((keccakModel ((List.replicate 65 4).drop 1)).drop 12)))
      = true :=
  C5_address_from_pubkey keccakModel (List.replicate 65 4) (by decide) (by decide)

/-- C6: on any byte sequence whose length is not 65, the address function
returns the invalid-length error instead of an address. -/
theorem C6_address_invalid_length (keccak256 : List Nat → List Nat)
    (pubKey : List Nat) (h : pubKey.length ≠ 65) :
    publicKeyToAddress keccak256 pubKey = .error "Invalid public key length" := by
  simp [publicKeyToAddress, h]

/-- C6 witness: the theorem applied to a 3-byte input. -/
theorem C6_address_invalid_length_witness :
    publicKeyToAddress keccakModel [1, 2, 3] = .error "Invalid public key length" :=
  C6_address_invalid_length keccakModel [1, 2, 3] (by decide)

/-- C7: the claim of exact wei conversion fails on the code: the
double-precision pipeline of line 336 turns the decimal value
1.000000000000000001 (one ether plus one wei, the fraction with
numerator 10 ^ 18 + 1 and denominator 10 ^ 18) into 10 ^ 18 wei, while
exact multiplication by 10 ^ 18 with truncation gives 10 ^ 18 + 1. -/
theorem C7_wei_precision_loss :
    jsEthToWei 1000000000000000001 1000000000000000000 = 1000000000000000000
    ∧ exactWei 1000000000000000001 1000000000000000000 = 1000000000000000001 :=
  ⟨by decide, by decide⟩

/-- C8: the trailing three fields of the signed field list are v, r, s
with r and s the untouched 32-byte halves of the signature (leading zero
bytes kept), but the claim that v is minimally byte-encoded fails on the
code: with chainId 110 and recovery id 1, v is 256 and its field is the
bytes 16, 0 instead of the minimal representation 1, 0. -/
theorem C8_signed_tail_fields :
    (signTxFields rlpModel keccakModel ecdsaModel 0 1000000000 21000
        "0x8ba1f109551bd432803012645ac136ddd64dba72" 5 [] 110
        (List.replicate 32 1)).getD 6 [] = [16, 0]
    ∧ computeV 110 1 = 256
    ∧ minBE 256 = [1, 0]
    ∧ (signTxFields rlpModel keccakModel ecdsaModel 0 1000000000 21000
        "0x8ba1f109551bd432803012645ac136ddd64dba72" 5 [] 110
        (List.replicate 32 1)).getD 7 [] = List.range 32
    ∧ (signTxFields rlpModel keccakModel ecdsaModel 0 1000000000 21000
        "0x8ba1f109551bd432803012645ac136ddd64dba72" 5 [] 110
        (List.replicate 32 1)).getD 8 [] = (List.range 64).drop 32
    ∧ ((signTxFields rlpModel keccakModel ecdsaModel 0 1000000000 21000
        "0x8ba1f109551bd432803012645ac136ddd64dba72" 5 [] 110
        (List.replicate 32 1)).getD 7 []).length = 32
    ∧ ((signTxFields rlpModel keccakModel ecdsaModel 0 1000000000 21000
        "0x8ba1f109551bd432803012645ac136ddd64dba72" 5 [] 110
        (List.replicate 32 1)).getD 8 []).length = 32 := by
  refine ⟨by decide, rfl, by decide, by decide, by decide, by decide, by decide⟩

/-- C9: any recipient string that fails the address pattern or whose hex
decoding is not 20 bytes makes the main flow exit with an error before
the rest of the program runs; the outcome does not depend on the signing
continuation, so signTransaction is never invoked. -/
theorem C9_invalid_to_rejected (rest1 rest2 : Unit → List Nat) (toAddr : String)
    (h : isAddrFormat toAddr = false
      ∨ (bufferFromHex (toAddr.toList.drop 2)).length ≠ 20) :
    walletSignFlow rest1 toAddr = .error "Invalid --to address"
    ∧ walletSignFlow rest1 toAddr = walletSignFlow rest2 toAddr := by
  have hfalse : isHexAddress toAddr = false := by
    unfold isHexAddress
    rcases h with h | h
    · simp [h]
    · simp [h]
      intro hfmt
      simpa [hfmt] using h
  constructor <;> simp [walletSignFlow, hfalse]

/-- C9 witness: the theorem applied to the short string 0x1234 and two
distinct continuations. -/
theorem C9_invalid_to_rejected_witness :
    walletSignFlow (fun _ => []) "0x1234" = .error "Invalid --to address"
    ∧ walletSignFlow (fun _ => []) "0x1234" = walletSignFlow (fun _ => [7]) "0x1234" :=
  C9_invalid_to_rejected (fun _ => []) (fun _ => [7]) "0x1234" (Or.inl (by decide))

/-- C10: any string matching the hex-literal pattern is returned by the
CLI value parser unchanged as a string, whatever the Number conversion
would have produced. -/
theorem C10_hex_survives_parseValue (jsNumber : String → Option Rat)
    (v : String) (h : isHexLiteral v = true) :
    parseValue jsNumber v = .str v := by
  have hvt : v ≠ "true" := by
    intro hv
    rw [hv] at h
    exact absurd h (by decide)
  have hvf : v ≠ "false" := by
    intro hv
    rw [hv] at h
    exact absurd h (by decide)
  unfold parseValue
  rw [if_neg hvt, if_neg hvf, if_pos h]

/-- C10 witness: the theorem applied to the literal 0xAb12 with a Number
model that would have produced NaN. -/
theorem C10_hex_survives_parseValue_witness :
    parseValue (fun _ => none) "0xAb12" = .str "0xAb12" :=
  C10_hex_survives_parseValue (fun _ => none) "0xAb12" (by decide)

end Wallet
